import Mathlib

/-!
# Verification of the Solana token API core (`src/main.rs`)

A shallow embedding of the token-metadata caching layer, the request-time
enrichment join and the balance lookup of `src/main.rs`, together with
theorems checking the natural-language specification against it.

Modelling conventions:

* serde_json `Value` is the inductive `Json` below; JSON numbers are
  modelled as exact rationals (the Rust code's `f64` arithmetic is
  idealised as exact arithmetic over `ℚ`, which agrees with it on every
  value the claims mention).
* `SystemTime` instants are rationals counting seconds since an arbitrary
  origin; `SystemTime::elapsed` fails exactly when the clock stands before
  the recorded instant, which `elapsedAt` models with an `Option`.
* The process-global `TOKEN_MAP` cell becomes explicit state passing of a
  `CacheState`; the network is an oracle argument (`Except FetchError Json`
  is the outcome of the one fetch a refresh performs).  `HashMap<String,
  Value>` is modelled as an association list with insert-overwrites
  semantics (`mapInsert`/`mapLookup`).
* `get_token_map` additionally reports whether it attempted a refresh
  (`didRefresh`), which in the Rust code is the observable network call.
-/

namespace SolanaApi

/-- serde_json `Value`, with numbers as exact rationals. -/
inductive Json where
  | null
  | bool (b : Bool)
  | num (q : ℚ)
  | str (s : String)
  | arr (elems : List Json)
  | obj (fields : List (String × Json))

/-- Rust `value["key"]`: the value at `key` when `j` is an object having
that key, `Null` otherwise (serde_json's non-panicking `Index` impl). -/
def Json.getField (j : Json) (key : String) : Json :=
  match j with
  | .obj fields =>
    match fields.find? (fun p => p.1 == key) with
    | some p => p.2
    | none => .null
  | _ => .null

/-- serde_json `as_str`. -/
def Json.asStr : Json → Option String
  | .str s => some s
  | _ => none

/-- serde_json `as_array`. -/
def Json.asArray : Json → Option (List Json)
  | .arr xs => some xs
  | _ => none

/-- serde_json `as_u64`: the number when it is a nonnegative integer
fitting in 64 bits, `none` otherwise (and on every non-number). -/
def Json.asU64 : Json → Option Nat
  | .num q => if q.den = 1 ∧ 0 ≤ q.num ∧ q.num < 2 ^ 64 then some q.num.toNat else none
  | _ => none

/-- Insertion into the field list of a JSON object (serde_json `Map`
insert, as performed by Rust `obj[key] = v`): replace the value at an
existing key, otherwise add the binding at the end. -/
def setFields : List (String × Json) → String → Json → List (String × Json)
  | [], key, v => [(key, v)]
  | (a, x) :: rest, key, v =>
    if a == key then (key, v) :: rest else (a, x) :: setFields rest key v

/-- Rust `value[key] = v` on an object.  (On a non-object serde_json would
panic; the code only ever assigns into objects it just built, so the
non-object case is inert here.) -/
def Json.setField (j : Json) (key : String) (v : Json) : Json :=
  match j with
  | .obj fields => .obj (setFields fields key v)
  | j => j

/-- Whether an object has a key (used to state that a field is absent, as
opposed to bound to `Null`). -/
def Json.hasField (j : Json) (key : String) : Bool :=
  match j with
  | .obj fields => fields.any (fun p => p.1 == key)
  | _ => false

/-- Model of `HashMap<String, Value>` as an association list. -/
abbrev TokenMap := List (String × Json)

/-- Lookup, `HashMap::get`. -/
def mapLookup (m : TokenMap) (k : String) : Option Json :=
  (m.find? (fun p => p.1 == k)).map (fun p => p.2)

/-- Insertion, `HashMap::insert`: the new binding shadows (replaces) any old binding
of the same key. -/
def mapInsert (m : TokenMap) (k : String) (v : Json) : TokenMap :=
  (k, v) :: m.filter (fun p => !(p.1 == k))

/-- Failure of the token-list fetch in `refresh_token_map`: either the
transport-level `send()` fails or the body is not valid JSON
(`json()` fails).  Both are `reqwest::Error` values in the source. -/
inductive FetchError
  | transport
  | parse
deriving DecidableEq

/-- The contents of the `TOKEN_MAP` global: the mint-to-metadata mapping
and the instant of the last refresh. -/
structure CacheState where
  map : TokenMap
  timestamp : ℚ

/-- Initial value of `TOKEN_MAP`: `(HashMap::new(), SystemTime::now())`,
i.e. an empty mapping stamped with the creation instant. -/
def initCache (startTime : ℚ) : CacheState :=
  { map := [], timestamp := startTime }

/-- The `tokens` array of the fetched token-list document;
`token_list["tokens"].as_array()` with a missing or non-array field giving
no iterations of the loop. -/
def tokensOf (token_list : Json) : List Json :=
  ((token_list.getField "tokens").asArray).getD []

/-- Rust `token["address"].as_str()`. -/
def addrOf (token : Json) : Option String :=
  (token.getField "address").asStr

/-- One iteration of the loop in `refresh_token_map`: insert the entry
under its address when that is a string, skip it otherwise. -/
def insertToken (m : TokenMap) (token : Json) : TokenMap :=
  match addrOf token with
  | some mint => mapInsert m mint token
  | none => m

/-- The mapping a successful refresh builds from the fetched document. -/
def buildTokenMap (token_list : Json) : TokenMap :=
  (tokensOf token_list).foldl insertToken []

/-- Model of `refresh_token_map`: on fetch/parse failure the `?` operator returns
the error before the cache is touched; on success the mapping and the
timestamp are replaced together under the write lock. -/
def refresh_token_map (st : CacheState) (fetched : Except FetchError Json)
    (now : ℚ) : CacheState × Except FetchError Unit :=
  match fetched with
  | .error e => (st, .error e)
  | .ok token_list => ({ map := buildTokenMap token_list, timestamp := now }, .ok ())

/-- Model of `SystemTime::elapsed`: fails (`Err`) exactly when the clock stands
before the recorded instant. -/
def elapsedAt (ts now : ℚ) : Option ℚ :=
  if ts ≤ now then some (now - ts) else none

/-- Rust `cache.1.elapsed().unwrap_or(Duration::from_secs(0))`. -/
def cacheAge (st : CacheState) (now : ℚ) : ℚ :=
  (elapsedAt st.timestamp now).getD 0

/-- Outcome of `get_token_map`: the cache state afterwards, the returned
snapshot (or surfaced error), and whether a refresh was attempted. -/
structure SnapshotResult where
  state : CacheState
  result : Except FetchError TokenMap
  didRefresh : Bool

/-- Model of `get_token_map`: refresh when the recorded age strictly exceeds
3600 seconds, then return the (possibly refreshed) mapping; a refresh
failure propagates via `?`.  `now` is the instant of the staleness
check, `refreshTime` the instant the refresh would stamp. -/
def get_token_map (st : CacheState) (now : ℚ) (fetched : Except FetchError Json)
    (refreshTime : ℚ) : SnapshotResult :=
  if cacheAge st now > 3600 then
    match refresh_token_map st fetched refreshTime with
    | (st2, .ok ()) => { state := st2, result := .ok st2.map, didRefresh := true }
    | (st2, .error e) => { state := st2, result := .error e, didRefresh := true }
  else { state := st, result := .ok st.map, didRefresh := false }

/-- Value of a digit string (most significant first). -/
def digitsVal (cs : List Char) : Nat :=
  cs.foldl (fun n c => n * 10 + (c.toNat - 48)) 0

/-- Exact value of an unsigned plain decimal literal `digits[.digits]`,
`none` when `cs` is not of that shape. -/
def parseUnsigned (cs : List Char) : Option ℚ :=
  match cs.dropWhile Char.isDigit with
  | [] => if cs.isEmpty then none else some (digitsVal cs)
  | '.' :: frac =>
    if (cs.takeWhile Char.isDigit).isEmpty && frac.isEmpty then none
    else if frac.all Char.isDigit then
      some ((digitsVal (cs.takeWhile Char.isDigit) : ℚ)
        + (digitsVal frac : ℚ) / 10 ^ frac.length)
    else none
  | _ => none

/-- Model of Rust `str::parse::<f64>()` returning the exact value:
an optional sign followed by a plain decimal literal.  (The full Rust
grammar also accepts exponents and named specials; none occur in the
claims, and every divergence parses to `none` here, i.e. to the default
`0.0` path, just as any unparsable string does in the source.) -/
def parseDecimal (s : String) : Option ℚ :=
  match s.toList with
  | '-' :: cs => (parseUnsigned cs).map (fun q => -q)
  | '+' :: cs => parseUnsigned cs
  | cs => parseUnsigned cs

/-- Rust `account["account"]["data"]["parsed"]["info"]`. -/
def infoOf (account : Json) : Json :=
  (((account.getField "account").getField "data").getField "parsed").getField "info"

/-- Rust `info["mint"].as_str()`. -/
def mintOf (account : Json) : Option String :=
  ((infoOf account).getField "mint").asStr

/-- Rust `info["tokenAmount"]`. -/
def tokenAmountOf (account : Json) : Json :=
  (infoOf account).getField "tokenAmount"

/-- Rust `tokenAmount["amount"].as_str().unwrap_or("0")`. -/
def rawAmountStr (account : Json) : String :=
  (((tokenAmountOf account).getField "amount").asStr).getD "0"

/-- Rust `tokenAmount["decimals"].as_u64().unwrap_or(0)`. -/
def decimalsOf (account : Json) : Nat :=
  (((tokenAmountOf account).getField "decimals").asU64).getD 0

/-- Rust `amount_str.parse::<f64>().unwrap_or(0.0) / 10f64.powi(decimals as i32)`,
in exact arithmetic. -/
def humanAmount (account : Json) : ℚ :=
  ((parseDecimal (rawAmountStr account)).getD 0) / 10 ^ decimalsOf account

/-- The `token_info` object built for one account before the metadata
merge. -/
def baseRecord (account : Json) (mint : String) : Json :=
  .obj [("mint", .str mint), ("amount", .num (humanAmount account)),
        ("decimals", .num (decimalsOf account))]

/-- One conditional assignment
`if let Some(s) = md[key].as_str() { token_info[key] = Value::String(s) }`. -/
def maybeSetStr (j : Json) (key : String) (o : Option String) : Json :=
  match o with
  | some s => j.setField key (.str s)
  | none => j

/-- The three conditional `token_info[...] = ...` assignments performed
when the mint is found in the metadata mapping. -/
def mergeMeta (base md : Json) : Json :=
  maybeSetStr (maybeSetStr (maybeSetStr base
    "symbol" ((md.getField "symbol").asStr))
    "name" ((md.getField "name").asStr))
    "logoURI" ((md.getField "logoURI").asStr)

/-- The body of the loop in `get_spl_tokens` for one account: `none` when
the account is skipped (no string mint), otherwise the record pushed. -/
def enrichAccount (token_map : TokenMap) (account : Json) : Option Json :=
  match mintOf account with
  | none => none
  | some mint =>
    some (match mapLookup token_map mint with
      | none => baseRecord account mint
      | some md => mergeMeta (baseRecord account mint) md)

/-- Rust `resp["result"]["value"].as_array().cloned().unwrap_or_else(Vec::new)`. -/
def accountsOf (resp : Json) : List Json :=
  (((resp.getField "result").getField "value").asArray).getD []

/-- The accumulation loop of `get_spl_tokens`. -/
def enrichLoop (token_map : TokenMap) : List Json → List Json
  | [] => []
  | account :: rest =>
    match enrichAccount token_map account with
    | some t => t :: enrichLoop token_map rest
    | none => enrichLoop token_map rest

/-- Model of `get_spl_tokens` after both the RPC response and the metadata snapshot
arrived successfully (the error paths just propagate the respective
failure). -/
def get_spl_tokens (resp : Json) (token_map : TokenMap) : List Json :=
  enrichLoop token_map (accountsOf resp)

/-- Rust `resp["result"]["value"].as_u64().unwrap_or(0)`. -/
def lamportsOf (resp : Json) : Nat :=
  ((((resp.getField "result").getField "value").asU64)).getD 0

/-- Model of `get_sol_balance` after a successful RPC round trip, in exact
arithmetic. -/
def get_sol_balance (resp : Json) : Json :=
  .obj [("lamports", .num (lamportsOf resp)),
        ("sol", .num ((lamportsOf resp : ℚ) / 1000000000))]

/-- A concrete `getTokenAccountsByOwner` account element: mint `"M"`,
raw amount `"1500"`, 2 decimals. -/
def sampleAccount : Json :=
  .obj [("account", .obj [("data", .obj [("parsed", .obj [("info",
    .obj [("mint", .str "M"), ("tokenAmount",
      .obj [("amount", .str "1500"), ("decimals", .num 2)])])])])])]

/-- A concrete account element with raw amount `"0"` and 9 decimals. -/
def zeroAccount : Json :=
  .obj [("account", .obj [("data", .obj [("parsed", .obj [("info",
    .obj [("mint", .str "Z"), ("tokenAmount",
      .obj [("amount", .str "0"), ("decimals", .num 9)])])])])])]

/-- A metadata record carrying only a `symbol`. -/
def sampleMeta : Json := .obj [("symbol", .str "SOL")]

/-- A token-list document with two entries sharing the address `"A"`. -/
def dupDoc : Json :=
  .obj [("tokens", .arr [
    .obj [("address", .str "A"), ("symbol", .str "S1")],
    .obj [("address", .str "A"), ("symbol", .str "S2")]])]

/-! ## Association-list lemmas -/

theorem mapLookup_insert_self (m : TokenMap) (k : String) (v : Json) :
    mapLookup (mapInsert m k v) k = some v := by
  simp [mapLookup, mapInsert, List.find?_cons]

theorem find?_filter_ne (m : TokenMap) (a k : String) (h : ¬ k = a) :
    (m.filter (fun p => !(p.1 == a))).find? (fun p => p.1 == k)
      = m.find? (fun p => p.1 == k) := by
  induction m with
  | nil => rfl
  | cons hd tl ih =>
    rcases hd with ⟨b, w⟩
    by_cases hba : b = a
    · subst hba
      have hbk : (b == k) = false := by
        simp only [beq_eq_false_iff_ne]
        exact fun hh => h hh.symm
      simp [List.filter_cons, List.find?_cons, hbk, ih]
    · have hba' : (b == a) = false := by simpa using hba
      by_cases hbk : b = k
      · subst hbk
        simp [List.filter_cons, List.find?_cons, hba']
      · have hbk' : (b == k) = false := by simpa using hbk
        simp [List.filter_cons, List.find?_cons, hba', hbk', ih]

theorem mapLookup_insert_ne (m : TokenMap) (a k : String) (v : Json) (h : ¬ k = a) :
    mapLookup (mapInsert m a v) k = mapLookup m k := by
  have hak : (a == k) = false := by
    simp only [beq_eq_false_iff_ne]
    exact fun hh => h hh.symm
  simp [mapLookup, mapInsert, List.find?_cons, hak, find?_filter_ne m a k h]

theorem mapLookup_insertToken (m : TokenMap) (t : Json) (k : String) :
    mapLookup (insertToken m t) k =
      if addrOf t = some k then some t else mapLookup m k := by
  cases h : addrOf t with
  | none => simp [insertToken, h]
  | some a =>
    by_cases hak : a = k
    · subst hak
      simp [insertToken, h, mapLookup_insert_self]
    · have hka : ¬ k = a := fun hh => hak hh.symm
      simp [insertToken, h, mapLookup_insert_ne m a k t hka, hak]

theorem mapLookup_foldl_insertToken (tokens : List Json) (m : TokenMap) (k : String) :
    mapLookup (tokens.foldl insertToken m) k =
      tokens.foldl (fun acc t => if addrOf t = some k then some t else acc)
        (mapLookup m k) := by
  induction tokens generalizing m with
  | nil => rfl
  | cons t ts ih =>
    simp only [List.foldl_cons]
    rw [ih (insertToken m t), mapLookup_insertToken]

theorem foldl_lastUpd (tokens : List Json) (k : String) (acc : Option Json) :
    tokens.foldl (fun a t => if addrOf t = some k then some t else a) acc =
      (((tokens.filter (fun t => addrOf t == some k)).getLast?).elim acc some) := by
  induction tokens generalizing acc with
  | nil => rfl
  | cons t ts ih =>
    simp only [List.foldl_cons, List.filter_cons]
    by_cases hp : addrOf t = some k
    · have hp' : (addrOf t == some k) = true := by simpa using hp
      rw [if_pos hp, hp', ih]
      cases hts : ts.filter (fun t => addrOf t == some k) with
      | nil => simp
      | cons b l =>
        have : ∃ u, (b :: l).getLast? = some u := by
          cases hgl : (b :: l).getLast? with
          | none => exact absurd (List.getLast?_eq_none_iff.mp hgl) (by simp)
          | some u => exact ⟨u, rfl⟩
        rcases this with ⟨u, hu⟩
        simp [List.getLast?_cons_cons, hu]
    · have hp' : (addrOf t == some k) = false := by simpa using hp
      rw [if_neg hp, hp', ih]
      simp

theorem mapLookup_buildTokenMap (tl : Json) (k : String) :
    mapLookup (buildTokenMap tl) k =
      ((((tokensOf tl).filter (fun t => addrOf t == some k)).getLast?).elim none some) := by
  unfold buildTokenMap
  rw [mapLookup_foldl_insertToken]
  have h0 : mapLookup ([] : TokenMap) k = none := rfl
  rw [h0, foldl_lastUpd]

/-! ## Object-update lemmas -/

theorem find?_setFields_self (fs : List (String × Json)) (k : String) (v : Json) :
    (setFields fs k v).find? (fun p => p.1 == k) = some (k, v) := by
  induction fs with
  | nil => simp [setFields, List.find?_cons]
  | cons hd tl ih =>
    rcases hd with ⟨a, x⟩
    by_cases hak : a = k
    · subst hak
      simp [setFields, List.find?_cons]
    · have hak' : (a == k) = false := by simpa using hak
      simp [setFields, hak', List.find?_cons, ih]

theorem find?_setFields_ne (fs : List (String × Json)) (k k' : String) (v : Json)
    (h : ¬ k' = k) :
    (setFields fs k v).find? (fun p => p.1 == k') = fs.find? (fun p => p.1 == k') := by
  have hkk' : (k == k') = false := by
    simp only [beq_eq_false_iff_ne]
    exact fun hh => h hh.symm
  induction fs with
  | nil => simp [setFields, List.find?_cons, hkk']
  | cons hd tl ih =>
    rcases hd with ⟨a, x⟩
    by_cases hak : a = k
    · subst hak
      simp [setFields, List.find?_cons, hkk']
    · have hak' : (a == k) = false := by simpa using hak
      by_cases hak2 : a = k'
      · subst hak2
        simp [setFields, hak', List.find?_cons]
      · have hak2' : (a == k') = false := by simpa using hak2
        simp [setFields, hak', hak2', List.find?_cons, ih]

theorem any_setFields_self (fs : List (String × Json)) (k : String) (v : Json) :
    (setFields fs k v).any (fun p => p.1 == k) = true := by
  induction fs with
  | nil => simp [setFields]
  | cons hd tl ih =>
    rcases hd with ⟨a, x⟩
    by_cases hak : a = k
    · subst hak
      simp [setFields]
    · have hak' : (a == k) = false := by simpa using hak
      simp [setFields, hak', ih]

theorem any_setFields_ne (fs : List (String × Json)) (k k' : String) (v : Json)
    (h : ¬ k' = k) :
    (setFields fs k v).any (fun p => p.1 == k') = fs.any (fun p => p.1 == k') := by
  have hkk' : (k == k') = false := by
    simp only [beq_eq_false_iff_ne]
    exact fun hh => h hh.symm
  induction fs with
  | nil => simp [setFields, hkk']
  | cons hd tl ih =>
    rcases hd with ⟨a, x⟩
    by_cases hak : a = k
    · subst hak
      simp [setFields, hkk']
    · have hak' : (a == k) = false := by simpa using hak
      simp [setFields, hak', ih]

theorem getField_setField_self (fs : List (String × Json)) (k : String) (v : Json) :
    ((Json.obj fs).setField k v).getField k = v := by
  simp [Json.setField, Json.getField, find?_setFields_self]

theorem getField_setField_ne (j : Json) (k k' : String) (v : Json) (h : ¬ k' = k) :
    (j.setField k v).getField k' = j.getField k' := by
  cases j
  case obj fields =>
    simp only [Json.setField, Json.getField]
    rw [find?_setFields_ne fields k k' v h]
  all_goals rfl

theorem hasField_setField_self (fs : List (String × Json)) (k : String) (v : Json) :
    ((Json.obj fs).setField k v).hasField k = true := by
  simp [Json.setField, Json.hasField, any_setFields_self]

theorem hasField_setField_ne (j : Json) (k k' : String) (v : Json) (h : ¬ k' = k) :
    (j.setField k v).hasField k' = j.hasField k' := by
  cases j
  case obj fields =>
    simp only [Json.setField, Json.hasField]
    rw [any_setFields_ne fields k k' v h]
  all_goals rfl

/-! ## Metadata-merge lemmas -/

theorem getField_maybeSetStr_ne (j : Json) (key k : String) (o : Option String)
    (h : ¬ k = key) :
    (maybeSetStr j key o).getField k = j.getField k := by
  cases o with
  | none => rfl
  | some s => exact getField_setField_ne j key k (.str s) h

theorem hasField_maybeSetStr_ne (j : Json) (key k : String) (o : Option String)
    (h : ¬ k = key) :
    (maybeSetStr j key o).hasField k = j.hasField k := by
  cases o with
  | none => rfl
  | some s => exact hasField_setField_ne j key k (.str s) h

theorem maybeSetStr_obj (fs : List (String × Json)) (key : String) (o : Option String) :
    ∃ gs, maybeSetStr (Json.obj fs) key o = Json.obj gs := by
  cases o with
  | none => exact ⟨fs, rfl⟩
  | some s => exact ⟨setFields fs key (.str s), rfl⟩

theorem hasField_maybeSetStr_self_of_not (fs : List (String × Json)) (key : String)
    (o : Option String) (hb : (Json.obj fs).hasField key = false) :
    (maybeSetStr (Json.obj fs) key o).hasField key = o.isSome := by
  cases o with
  | none => simpa using hb
  | some s => simpa using hasField_setField_self fs key (.str s)

theorem getField_maybeSetStr_some (fs : List (String × Json)) (key s : String) :
    (maybeSetStr (Json.obj fs) key (some s)).getField key = .str s :=
  getField_setField_self fs key (.str s)

theorem mergeMeta_getField_other (base md : Json) (k : String)
    (h1 : ¬ k = "symbol") (h2 : ¬ k = "name") (h3 : ¬ k = "logoURI") :
    (mergeMeta base md).getField k = base.getField k := by
  unfold mergeMeta
  rw [getField_maybeSetStr_ne _ _ _ _ h3, getField_maybeSetStr_ne _ _ _ _ h2,
    getField_maybeSetStr_ne _ _ _ _ h1]

theorem mergeMeta_hasField_symbol (fs : List (String × Json)) (md : Json)
    (hb : (Json.obj fs).hasField "symbol" = false) :
    (mergeMeta (Json.obj fs) md).hasField "symbol"
      = ((md.getField "symbol").asStr).isSome := by
  unfold mergeMeta
  rw [hasField_maybeSetStr_ne _ _ _ _ (show ¬ "symbol" = "logoURI" by decide),
    hasField_maybeSetStr_ne _ _ _ _ (show ¬ "symbol" = "name" by decide)]
  exact hasField_maybeSetStr_self_of_not fs "symbol" _ hb

theorem mergeMeta_hasField_name (fs : List (String × Json)) (md : Json)
    (hb : (Json.obj fs).hasField "name" = false) :
    (mergeMeta (Json.obj fs) md).hasField "name"
      = ((md.getField "name").asStr).isSome := by
  unfold mergeMeta
  rw [hasField_maybeSetStr_ne _ _ _ _ (show ¬ "name" = "logoURI" by decide)]
  obtain ⟨gs, hgs⟩ := maybeSetStr_obj fs "symbol" ((md.getField "symbol").asStr)
  rw [hgs]
  apply hasField_maybeSetStr_self_of_not
  rw [← hgs, hasField_maybeSetStr_ne _ _ _ _ (show ¬ "name" = "symbol" by decide)]
  exact hb

theorem mergeMeta_hasField_logoURI (fs : List (String × Json)) (md : Json)
    (hb : (Json.obj fs).hasField "logoURI" = false) :
    (mergeMeta (Json.obj fs) md).hasField "logoURI"
      = ((md.getField "logoURI").asStr).isSome := by
  unfold mergeMeta
  obtain ⟨gs1, hgs1⟩ := maybeSetStr_obj fs "symbol" ((md.getField "symbol").asStr)
  rw [hgs1]
  obtain ⟨gs2, hgs2⟩ := maybeSetStr_obj gs1 "name" ((md.getField "name").asStr)
  rw [hgs2]
  apply hasField_maybeSetStr_self_of_not
  rw [← hgs2, hasField_maybeSetStr_ne _ _ _ _ (show ¬ "logoURI" = "name" by decide),
    ← hgs1, hasField_maybeSetStr_ne _ _ _ _ (show ¬ "logoURI" = "symbol" by decide)]
  exact hb

theorem mergeMeta_getField_symbol (fs : List (String × Json)) (md : Json) (s : String)
    (h : (md.getField "symbol").asStr = some s) :
    (mergeMeta (Json.obj fs) md).getField "symbol" = .str s := by
  unfold mergeMeta
  rw [getField_maybeSetStr_ne _ _ _ _ (show ¬ "symbol" = "logoURI" by decide),
    getField_maybeSetStr_ne _ _ _ _ (show ¬ "symbol" = "name" by decide), h]
  exact getField_maybeSetStr_some fs "symbol" s

theorem mergeMeta_getField_name (fs : List (String × Json)) (md : Json) (s : String)
    (h : (md.getField "name").asStr = some s) :
    (mergeMeta (Json.obj fs) md).getField "name" = .str s := by
  unfold mergeMeta
  rw [getField_maybeSetStr_ne _ _ _ _ (show ¬ "name" = "logoURI" by decide), h]
  obtain ⟨gs, hgs⟩ := maybeSetStr_obj fs "symbol" ((md.getField "symbol").asStr)
  rw [hgs]
  exact getField_maybeSetStr_some gs "name" s

theorem mergeMeta_getField_logoURI (fs : List (String × Json)) (md : Json) (s : String)
    (h : (md.getField "logoURI").asStr = some s) :
    (mergeMeta (Json.obj fs) md).getField "logoURI" = .str s := by
  unfold mergeMeta
  rw [h]
  obtain ⟨gs1, hgs1⟩ := maybeSetStr_obj fs "symbol" ((md.getField "symbol").asStr)
  rw [hgs1]
  obtain ⟨gs2, hgs2⟩ := maybeSetStr_obj gs1 "name" ((md.getField "name").asStr)
  rw [hgs2]
  exact getField_maybeSetStr_some gs2 "logoURI" s

/-! ## Claims about the Token Metadata Cache -/

/-- C1: the claim states that the cache starts with a timestamp of
"never refreshed" treated as immediately stale, so that the first
`get_snapshot()` after startup triggers a refresh rather than returning
the empty mapping as fresh.  In the code, `TOKEN_MAP` is initialised
with `SystemTime::now()` (the creation instant), so a first call at
startup finds age 0, performs no refresh, and returns the empty mapping
as fresh — refuting the claim at this concrete input. -/
theorem C1_counterexample :
    (get_token_map (initCache 0) 0 (.ok (.obj [("tokens", .arr [])])) 0).didRefresh
        = false ∧
    (get_token_map (initCache 0) 0 (.ok (.obj [("tokens", .arr [])])) 0).result
        = .ok [] := by
  have hns : ¬ (3600 : ℚ) < 0 := by norm_num
  constructor <;> simp [get_token_map, cacheAge, elapsedAt, initCache, hns]

/-- C1 (amended): the cache is created empty at process start with its
timestamp set to the creation instant, so it is treated as fresh, not
stale: a `get_snapshot()` within 3600 seconds of startup (before any
refresh) returns the empty mapping without triggering a refresh, and
only a call whose age since startup exceeds 3600 seconds triggers one. -/
theorem C1_amended_thm (t0 now : ℚ) (fetched : Except FetchError Json) (rt : ℚ) :
    (initCache t0).map = [] ∧
    (t0 ≤ now → now - t0 ≤ 3600 →
      get_token_map (initCache t0) now fetched rt =
        { state := initCache t0, result := .ok [], didRefresh := false }) ∧
    (now - t0 > 3600 →
      (get_token_map (initCache t0) now fetched rt).didRefresh = true) := by
  refine ⟨rfl, ?_, ?_⟩
  · intro h1 h2
    have hns : ¬ cacheAge { map := [], timestamp := t0 } now > 3600 := by
      simp only [cacheAge, elapsedAt, if_pos h1, Option.getD_some]
      exact not_lt.mpr h2
    simp [get_token_map, hns, initCache]
  · intro h
    have h1 : t0 ≤ now := by linarith
    have hgt : cacheAge (initCache t0) now > 3600 := by
      simp only [cacheAge, elapsedAt, initCache, if_pos h1, Option.getD_some]
      exact h
    cases fetched with
    | ok tl => simp [get_token_map, hgt, refresh_token_map]
    | error e => simp [get_token_map, hgt, refresh_token_map]

/-- Witness for the amended C1: at startup instant 0, a call at instant 0
returns the empty mapping without refreshing. -/
theorem C1_amended_witness :
    get_token_map (initCache 0) 0 (.ok Json.null) 0 =
      { state := initCache 0, result := .ok [], didRefresh := false } :=
  (C1_amended_thm 0 0 (.ok Json.null) 0).2.1 le_rfl (by norm_num)

/-- C2: a `get_snapshot()` on a cache whose recorded age does not exceed
3600 seconds returns the existing snapshot unchanged without refreshing;
when the age strictly exceeds 3600 seconds it attempts a refresh before
returning (returning the freshly built mapping on fetch success); and a
call issued immediately after a successful refresh never triggers
another refresh. -/
theorem C2_freshness_thm :
    (∀ st now fetched rt, ¬ cacheAge st now > 3600 →
      get_token_map st now fetched rt =
        { state := st, result := .ok st.map, didRefresh := false }) ∧
    (∀ st now fetched rt, cacheAge st now > 3600 →
      (get_token_map st now fetched rt).didRefresh = true) ∧
    (∀ st now (tl : Json) rt, cacheAge st now > 3600 →
      get_token_map st now (.ok tl) rt =
        { state := { map := buildTokenMap tl, timestamp := rt },
          result := .ok (buildTokenMap tl), didRefresh := true }) ∧
    (∀ st tl t fetched rt,
      get_token_map (refresh_token_map st (.ok tl) t).1 t fetched rt =
        { state := (refresh_token_map st (.ok tl) t).1,
          result := .ok (buildTokenMap tl), didRefresh := false }) := by
  refine ⟨?_, ?_, ?_, ?_⟩
  · intro st now fetched rt h
    simp [get_token_map, h]
  · intro st now fetched rt h
    cases fetched with
    | ok tl => simp [get_token_map, h, refresh_token_map]
    | error e => simp [get_token_map, h, refresh_token_map]
  · intro st now tl rt h
    simp [get_token_map, h, refresh_token_map]
  · intro st tl t fetched rt
    have hage : cacheAge { map := buildTokenMap tl, timestamp := t } t = 0 := by
      simp [cacheAge, elapsedAt]
    have hfresh : ¬ cacheAge { map := buildTokenMap tl, timestamp := t } t > 3600 := by
      rw [hage]; norm_num
    simp [get_token_map, hfresh, refresh_token_map]

/-- Witness for C2: a fresh cache (age 100 s) is returned as is; a stale
cache (age 5000 s) triggers a refresh, and on fetch success returns the
rebuilt mapping. -/
theorem C2_witness :
    (get_token_map { map := [], timestamp := 0 } 100 (.ok Json.null) 100 =
      { state := { map := [], timestamp := 0 }, result := .ok [],
        didRefresh := false }) ∧
    ((get_token_map { map := [], timestamp := 0 } 5000 (.error .parse) 5000).didRefresh
        = true) ∧
    (get_token_map { map := [], timestamp := 0 } 5000 (.ok (.obj [])) 5000 =
      { state := { map := [], timestamp := 5000 }, result := .ok [],
        didRefresh := true }) :=
  ⟨C2_freshness_thm.1 { map := [], timestamp := 0 } 100 (.ok Json.null) 100
      (by norm_num [cacheAge, elapsedAt]),
   C2_freshness_thm.2.1 { map := [], timestamp := 0 } 5000 (.error .parse) 5000
      (by norm_num [cacheAge, elapsedAt]),
   C2_freshness_thm.2.2.1 { map := [], timestamp := 0 } 5000 (.obj []) 5000
      (by norm_num [cacheAge, elapsedAt])⟩

/-- C3: a failed fetch (transport failure or non-JSON body) leaves both
the mapping and the timestamp of the cache unchanged and returns the
error to the caller — the `?` operators fire before the cache is
touched. -/
theorem C3_refresh_error_thm (st : CacheState) (e : FetchError) (now : ℚ) :
    (refresh_token_map st (.error e) now).1.map = st.map ∧
    (refresh_token_map st (.error e) now).1.timestamp = st.timestamp ∧
    (refresh_token_map st (.error e) now).2 = .error e :=
  ⟨rfl, rfl, rfl⟩

/-- C4: a successful refresh replaces mapping and timestamp together,
the new mapping keyed by each entry's `address` string: every binding's
value is an entry of the document whose `address` is the binding's key
(so entries lacking the field are skipped), and every entry carrying an
`address` gets its address bound; a valid JSON document with a missing
or empty `tokens` array yields the empty mapping and success. -/
theorem C4_refresh_success_thm :
    (∀ st tl now, refresh_token_map st (.ok tl) now =
      ({ map := buildTokenMap tl, timestamp := now }, .ok ())) ∧
    (∀ tl : Json, (tl.getField "tokens").asArray = none → buildTokenMap tl = []) ∧
    (∀ tl : Json, (tl.getField "tokens").asArray = some [] → buildTokenMap tl = []) ∧
    (∀ tl k v, mapLookup (buildTokenMap tl) k = some v →
      v ∈ tokensOf tl ∧ addrOf v = some k) ∧
    (∀ tl t mint, t ∈ tokensOf tl → addrOf t = some mint →
      ∃ v, mapLookup (buildTokenMap tl) mint = some v) := by
  refine ⟨fun st tl now => rfl, ?_, ?_, ?_, ?_⟩
  · intro tl h
    simp [buildTokenMap, tokensOf, h]
  · intro tl h
    simp [buildTokenMap, tokensOf, h]
  · intro tl k v h
    rw [mapLookup_buildTokenMap] at h
    cases hgl : ((tokensOf tl).filter (fun t => addrOf t == some k)).getLast? with
    | none => rw [hgl] at h; simp [Option.elim] at h
    | some u =>
      rw [hgl] at h
      have huv : u = v := by simpa using h
      subst huv
      have hmem := List.mem_filter.mp (List.mem_of_getLast?_eq_some hgl)
      exact ⟨hmem.1, by simpa using hmem.2⟩
  · intro tl t mint ht ha
    rw [mapLookup_buildTokenMap]
    have hmemf : t ∈ (tokensOf tl).filter (fun tok => addrOf tok == some mint) :=
      List.mem_filter.mpr ⟨ht, by simpa using ha⟩
    have hne : (tokensOf tl).filter (fun tok => addrOf tok == some mint) ≠ [] := by
      intro hnil
      rw [hnil] at hmemf
      simp at hmemf
    cases hgl : ((tokensOf tl).filter (fun tok => addrOf tok == some mint)).getLast? with
    | none => exact absurd (List.getLast?_eq_none_iff.mp hgl) hne
    | some u => exact ⟨u, rfl⟩

/-- Witness for C4: a document without a `tokens` key and one with an
empty array both build the empty mapping; in `dupDoc` the binding found
under `"A"` is an entry of the document carrying address `"A"`. -/
theorem C4_witness :
    buildTokenMap (Json.obj []) = [] ∧
    buildTokenMap (Json.obj [("tokens", .arr [])]) = [] ∧
    ((Json.obj [("address", .str "A"), ("symbol", .str "S2")]) ∈ tokensOf dupDoc ∧
      addrOf (Json.obj [("address", .str "A"), ("symbol", .str "S2")]) = some "A") ∧
    (∃ v, mapLookup (buildTokenMap dupDoc) "A" = some v) :=
  ⟨C4_refresh_success_thm.2.1 (Json.obj []) rfl,
   C4_refresh_success_thm.2.2.1 (Json.obj [("tokens", .arr [])]) rfl,
   C4_refresh_success_thm.2.2.2.1 dupDoc "A"
     (Json.obj [("address", .str "A"), ("symbol", .str "S2")]) rfl,
   C4_refresh_success_thm.2.2.2.2 dupDoc
     (Json.obj [("address", .str "A"), ("symbol", .str "S1")]) "A"
     (List.mem_cons_self _ _) rfl⟩

/-- C9: when the clock has moved backwards past the snapshot timestamp,
`elapsed()` fails, `unwrap_or(Duration::from_secs(0))` turns the age into
0, and `get_token_map` treats the snapshot as fresh: no refresh, the
stored mapping is returned — however old the snapshot really is. -/
theorem C9_clock_backwards_thm (st : CacheState) (now : ℚ)
    (fetched : Except FetchError Json) (rt : ℚ) (h : now < st.timestamp) :
    get_token_map st now fetched rt =
      { state := st, result := .ok st.map, didRefresh := false } := by
  have hage : cacheAge st now = 0 := by
    simp [cacheAge, elapsedAt, not_le.mpr h]
  have hns : ¬ cacheAge st now > 3600 := by
    rw [hage]; norm_num
  simp [get_token_map, hns]

/-- Witness for C9: a snapshot stamped at instant 100 read at instant 0
is served as fresh. -/
theorem C9_witness :
    get_token_map { map := [], timestamp := 100 } 0 (.ok Json.null) 0 =
      { state := { map := [], timestamp := 100 }, result := .ok [],
        didRefresh := false } :=
  C9_clock_backwards_thm { map := [], timestamp := 100 } 0 (.ok Json.null) 0
    (by norm_num)

/-- C10: when several entries of the token-list document carry the same
`address`, the mapping built by a successful refresh binds that address
to the last such entry in document order (later inserts overwrite
earlier ones). -/
theorem C10_duplicate_last_wins_thm (tl : Json) (k : String) (t : Json)
    (h : ((tokensOf tl).filter (fun tok => addrOf tok == some k)).getLast? = some t) :
    mapLookup (buildTokenMap tl) k = some t := by
  rw [mapLookup_buildTokenMap, h]
  rfl

/-- Witness for C10: in `dupDoc` both entries carry address `"A"`; the
mapping binds `"A"` to the second one. -/
theorem C10_witness :
    mapLookup (buildTokenMap dupDoc) "A" =
      some (Json.obj [("address", .str "A"), ("symbol", .str "S2")]) :=
  C10_duplicate_last_wins_thm dupDoc "A"
    (Json.obj [("address", .str "A"), ("symbol", .str "S2")]) rfl

/-! ## Enrichment-join lemmas -/

theorem baseRecord_getField_mint (a : Json) (mint : String) :
    (baseRecord a mint).getField "mint" = .str mint := rfl

theorem baseRecord_getField_amount (a : Json) (mint : String) :
    (baseRecord a mint).getField "amount" = .num (humanAmount a) := rfl

theorem baseRecord_getField_decimals (a : Json) (mint : String) :
    (baseRecord a mint).getField "decimals" = .num (decimalsOf a) := rfl

theorem enrichAccount_none (m : TokenMap) (a : Json) (h : mintOf a = none) :
    enrichAccount m a = none := by
  simp [enrichAccount, h]

theorem enrichAccount_no_meta (m : TokenMap) (a : Json) (mint : String)
    (h : mintOf a = some mint) (hm : mapLookup m mint = none) :
    enrichAccount m a = some (baseRecord a mint) := by
  simp [enrichAccount, h, hm]

theorem enrichAccount_with_meta (m : TokenMap) (a : Json) (mint : String) (md : Json)
    (h : mintOf a = some mint) (hm : mapLookup m mint = some md) :
    enrichAccount m a = some (mergeMeta (baseRecord a mint) md) := by
  simp [enrichAccount, h, hm]

theorem enrichLoop_eq_filterMap (m : TokenMap) (accounts : List Json) :
    enrichLoop m accounts = accounts.filterMap (enrichAccount m) := by
  induction accounts with
  | nil => rfl
  | cons a rest ih =>
    cases h : enrichAccount m a <;>
      simp [enrichLoop, h, ih, List.filterMap_cons]

theorem enrichAccount_mint_proj (m : TokenMap) (a : Json) (mint : String)
    (h : mintOf a = some mint) :
    (enrichAccount m a).map (fun r => r.getField "mint") = some (.str mint) := by
  cases hm : mapLookup m mint with
  | none =>
    rw [enrichAccount_no_meta m a mint h hm]
    exact congrArg some (baseRecord_getField_mint a mint)
  | some md =>
    rw [enrichAccount_with_meta m a mint md h hm]
    show some ((mergeMeta (baseRecord a mint) md).getField "mint") = some (.str mint)
    rw [mergeMeta_getField_other _ md "mint" (by decide) (by decide) (by decide)]
    exact congrArg some (baseRecord_getField_mint a mint)

theorem enrichLoop_mint_order (m : TokenMap) (accounts : List Json) :
    (accounts.filterMap (enrichAccount m)).map (fun r => r.getField "mint") =
      (accounts.filterMap mintOf).map Json.str := by
  induction accounts with
  | nil => rfl
  | cons a rest ih =>
    cases h : mintOf a with
    | none =>
      simp [List.filterMap_cons, enrichAccount_none m a h, h, ih]
    | some mint =>
      have hsome : ∃ r, enrichAccount m a = some r := by
        cases hm : mapLookup m mint with
        | none => exact ⟨_, enrichAccount_no_meta m a mint h hm⟩
        | some md => exact ⟨_, enrichAccount_with_meta m a mint md h hm⟩
      rcases hsome with ⟨r, hr⟩
      have hproj := enrichAccount_mint_proj m a mint h
      rw [hr] at hproj
      have hrm : r.getField "mint" = .str mint := by simpa using hproj
      simp [List.filterMap_cons, hr, h, ih, hrm]

/-! ## Claims about the Enrichment Join and Balance Lookup -/

/-- C5: when `result.value` is absent or not an array the join yields the
empty sequence (not an error); the loop is exactly a `filterMap`, so it
skips precisely the elements whose `account.data.parsed.info.mint` is not
a string and keeps all others in input order; and the sequence of mints
of the output records equals the sequence of mints of the kept input
accounts, in order. -/
theorem C5_rpc_extraction_thm :
    (∀ resp m, (((resp.getField "result").getField "value").asArray = none) →
      get_spl_tokens resp m = []) ∧
    (∀ m accounts, enrichLoop m accounts = accounts.filterMap (enrichAccount m)) ∧
    (∀ m a, mintOf a = none → enrichAccount m a = none) ∧
    (∀ resp m, (get_spl_tokens resp m).map (fun r => r.getField "mint") =
      ((accountsOf resp).filterMap mintOf).map Json.str) := by
  refine ⟨?_, enrichLoop_eq_filterMap, enrichAccount_none, ?_⟩
  · intro resp m h
    simp [get_spl_tokens, accountsOf, h, enrichLoop]
  · intro resp m
    rw [get_spl_tokens, enrichLoop_eq_filterMap]
    exact enrichLoop_mint_order m (accountsOf resp)

/-- Witness for C5: a non-object RPC response yields the empty list, and
an account element without a mint is skipped. -/
theorem C5_witness :
    get_spl_tokens Json.null [] = [] ∧
    enrichAccount [] (Json.obj []) = none :=
  ⟨C5_rpc_extraction_thm.1 Json.null [] rfl,
   C5_rpc_extraction_thm.2.2.1 [] (Json.obj []) rfl⟩

/-- C6: an account whose mint is missing from the metadata mapping still
yields an output record, carrying none of the symbol/name/logoURI keys;
when the mint is mapped to a metadata record, exactly those of the three
sub-fields present as strings are merged in (each absent sub-field leaves
the corresponding output key absent, not null). -/
theorem C6_metadata_merge_thm :
    (∀ m a mint, mintOf a = some mint → mapLookup m mint = none →
      enrichAccount m a = some (baseRecord a mint) ∧
      (baseRecord a mint).hasField "symbol" = false ∧
      (baseRecord a mint).hasField "name" = false ∧
      (baseRecord a mint).hasField "logoURI" = false) ∧
    (∀ m a mint md, mintOf a = some mint → mapLookup m mint = some md →
      enrichAccount m a = some (mergeMeta (baseRecord a mint) md) ∧
      (mergeMeta (baseRecord a mint) md).hasField "symbol"
        = ((md.getField "symbol").asStr).isSome ∧
      (mergeMeta (baseRecord a mint) md).hasField "name"
        = ((md.getField "name").asStr).isSome ∧
      (mergeMeta (baseRecord a mint) md).hasField "logoURI"
        = ((md.getField "logoURI").asStr).isSome ∧
      (∀ s, (md.getField "symbol").asStr = some s →
        (mergeMeta (baseRecord a mint) md).getField "symbol" = .str s) ∧
      (∀ s, (md.getField "name").asStr = some s →
        (mergeMeta (baseRecord a mint) md).getField "name" = .str s) ∧
      (∀ s, (md.getField "logoURI").asStr = some s →
        (mergeMeta (baseRecord a mint) md).getField "logoURI" = .str s)) := by
  constructor
  · intro m a mint h hm
    exact ⟨enrichAccount_no_meta m a mint h hm, rfl, rfl, rfl⟩
  · intro m a mint md h hm
    refine ⟨enrichAccount_with_meta m a mint md h hm, ?_, ?_, ?_, ?_, ?_, ?_⟩
    · exact mergeMeta_hasField_symbol _ md rfl
    · exact mergeMeta_hasField_name _ md rfl
    · exact mergeMeta_hasField_logoURI _ md rfl
    · intro s hs
      exact mergeMeta_getField_symbol _ md s hs
    · intro s hs
      exact mergeMeta_getField_name _ md s hs
    · intro s hs
      exact mergeMeta_getField_logoURI _ md s hs

/-- Witness for C6: with a metadata record carrying only a `symbol`, the
merged output has the symbol and no name or logo keys; with no metadata,
the account is still output bare. -/
theorem C6_witness :
    enrichAccount [("M", sampleMeta)] sampleAccount
      = some (mergeMeta (baseRecord sampleAccount "M") sampleMeta) ∧
    (mergeMeta (baseRecord sampleAccount "M") sampleMeta).hasField "symbol" = true ∧
    (mergeMeta (baseRecord sampleAccount "M") sampleMeta).hasField "name" = false ∧
    (mergeMeta (baseRecord sampleAccount "M") sampleMeta).hasField "logoURI" = false ∧
    (mergeMeta (baseRecord sampleAccount "M") sampleMeta).getField "symbol"
      = .str "SOL" ∧
    enrichAccount [] sampleAccount = some (baseRecord sampleAccount "M") := by
  have h2 := C6_metadata_merge_thm.2 [("M", sampleMeta)] sampleAccount "M" sampleMeta
    rfl rfl
  have h1 := C6_metadata_merge_thm.1 [] sampleAccount "M" rfl rfl
  refine ⟨h2.1, ?_, ?_, ?_, h2.2.2.2.2.1 "SOL" rfl, h1.1⟩
  · rw [h2.2.1]
    rfl
  · rw [h2.2.2.1]
    rfl
  · rw [h2.2.2.2.1]
    rfl

/-- C7: every output record's `amount` is
`tokenAmount.amount` (default `"0"` when absent or non-string), parsed
(default 0 on parse failure), divided by `10 ^ decimals` (decimals
defaulting to 0 when absent) — and concretely raw `"1500"` with 2
decimals gives 15, raw `"0"` with 9 decimals gives 0. -/
theorem C7_amount_thm :
    (∀ m a mint, mintOf a = some mint → ∃ r, enrichAccount m a = some r ∧
      r.getField "amount" =
        .num (((parseDecimal (rawAmountStr a)).getD 0) / 10 ^ decimalsOf a)) ∧
    humanAmount sampleAccount = 15 ∧
    humanAmount zeroAccount = 0 := by
  refine ⟨?_, ?_, ?_⟩
  · intro m a mint h
    cases hm : mapLookup m mint with
    | none =>
      exact ⟨baseRecord a mint, enrichAccount_no_meta m a mint h hm,
        baseRecord_getField_amount a mint⟩
    | some md =>
      refine ⟨mergeMeta (baseRecord a mint) md,
        enrichAccount_with_meta m a mint md h hm, ?_⟩
      rw [mergeMeta_getField_other _ md "amount" (by decide) (by decide) (by decide)]
      exact baseRecord_getField_amount a mint
  · have h1 : rawAmountStr sampleAccount = "1500" := rfl
    have h2 : decimalsOf sampleAccount = 2 := rfl
    have h3 : parseDecimal "1500" = some 1500 := rfl
    rw [humanAmount, h1, h2, h3]
    norm_num
  · have h1 : rawAmountStr zeroAccount = "0" := rfl
    have h2 : decimalsOf zeroAccount = 9 := rfl
    have h3 : parseDecimal "0" = some 0 := rfl
    rw [humanAmount, h1, h2, h3]
    norm_num

/-- Witness for C7: the record produced for `sampleAccount` carries the
computed amount, which is 15. -/
theorem C7_witness :
    (∃ r, enrichAccount [] sampleAccount = some r ∧
      r.getField "amount" =
        .num (((parseDecimal (rawAmountStr sampleAccount)).getD 0)
          / 10 ^ decimalsOf sampleAccount)) ∧
    humanAmount sampleAccount = 15 :=
  ⟨C7_amount_thm.1 [] sampleAccount "M" rfl, C7_amount_thm.2.1⟩

/-- C8: the balance lookup returns the extracted `result.value` (as an
unsigned integer, 0 when absent or of the wrong type) as `lamports` and
that value divided by `10 ^ 9` as `sol`; concretely 2500000000 lamports
give 5/2 (= 2.5) sol. -/
theorem C8_balance_thm :
    (∀ resp, (get_sol_balance resp).getField "lamports" = .num (lamportsOf resp) ∧
      (get_sol_balance resp).getField "sol"
        = .num ((lamportsOf resp : ℚ) / 1000000000)) ∧
    (∀ resp, (((resp.getField "result").getField "value").asU64) = none →
      lamportsOf resp = 0) ∧
    (get_sol_balance (Json.obj [("result", .obj [("value", .num 2500000000)])])).getField
        "sol" = .num (5 / 2) := by
  refine ⟨fun resp => ⟨rfl, rfl⟩, ?_, ?_⟩
  · intro resp h
    simp [lamportsOf, h]
  · have h1 : (get_sol_balance
        (Json.obj [("result", .obj [("value", .num 2500000000)])])).getField "sol"
        = .num ((lamportsOf (Json.obj [("result", .obj [("value", .num 2500000000)])]) : ℚ)
            / 1000000000) := rfl
    have h2 : lamportsOf (Json.obj [("result", .obj [("value", .num 2500000000)])])
        = 2500000000 := rfl
    rw [h1, h2]
    norm_num

/-- Witness for C8: a response without a usable `result.value` defaults to
0 lamports. -/
theorem C8_witness : lamportsOf Json.null = 0 :=
  C8_balance_thm.2.1 Json.null rfl

end SolanaApi
